import Mathlib

/-!
Verification of the face-detection / clustering / people-filter core of the
weekly-picture-selector application.

The embedding is a shallow one:

* floating-point descriptor arithmetic is modelled in exact rationals (`ℚ`);
  the source compares the Euclidean distance `sqrt s` against a threshold `t`,
  and since `sqrt` is strictly monotone on nonnegatives, `sqrt s < t ↔ s < t*t`
  for every positive `t`, so we embed the squared distance and compare against
  squared thresholds throughout (`thresholdSq` stands for the square of the
  source's `distanceThreshold`);
* the SQLite database consulted by `src/unnamed/part_011` (database module) is
  an explicit `DB` state record, and each repository function is a pure state
  transformer translated from its SQL statement;
* the worker IPC of `faceDetection.ts` / `faceWorker.ts` is modelled by a
  tagged message type and by the pure message-handler function which the
  per-call listener implements; the 60-second timer is modelled as a `timeout`
  event in the event stream observed by a call;
* exceptions (`throw` on descriptor-length mismatch, worker errors) are
  modelled with `Option` / `Except`.
-/

namespace WPS

/-- Bounding box of a detected face (`BoundingBox` in `shared/types.ts`). -/
structure BoundingBox where
  x : ℚ
  y : ℚ
  width : ℚ
  height : ℚ
deriving DecidableEq, Repr

/-- A face record (`Face` in `shared/types.ts`; row of the `faces` table).
`embedding` is the descriptor vector (floats in the source, rationals here). -/
structure Face where
  id : ℕ
  photoId : ℕ
  embedding : List ℚ
  boundingBox : BoundingBox
  personId : Option ℕ
  confidence : ℚ
deriving DecidableEq, Repr

/-- A photo record (`Photo` in `shared/types.ts`; row of the `photos` table).
`captureDate` is the nullable `capture_date` column, modelled as an integer
timestamp so that the `ORDER BY capture_date` clauses can be rendered. -/
structure Photo where
  id : ℕ
  path : String
  filename : String
  captureDate : Option ℤ
  weekNumber : Option ℕ
  year : Option ℕ
  exifData : Option String
  thumbnailPath : Option String
  isFavorite : Bool
  subdirectory : Option String
  isHidden : Bool
  createdAt : ℤ
deriving DecidableEq, Repr

/-- A person record (row of the `people` table, before the computed
`photo_count` column is attached). -/
structure Person where
  id : ℕ
  name : String
  representativeFaceId : Option ℕ
deriving DecidableEq, Repr

/-- A person as returned by the queries of the database module:
`rowToPerson` attaches the computed `photo_count` (`Person` in
`shared/types.ts`). -/
structure PersonWithCount where
  id : ℕ
  name : String
  representativeFaceId : Option ℕ
  photoCount : ℕ
deriving DecidableEq, Repr

/-- The database state behind the repository functions of the database module:
the three tables the claims touch, plus the AUTOINCREMENT counter feeding
`last_insert_rowid()` for the `faces` table. -/
structure DB where
  photos : List Photo
  faces : List Face
  people : List Person
  nextFaceId : ℕ
deriving DecidableEq, Repr

/-- `insertFace` (database module): INSERT INTO faces, returning
`last_insert_rowid()`.  The new row is appended and receives the next id. -/
def insertFace (db : DB) (photoId : ℕ) (embedding : List ℚ) (boundingBox : BoundingBox)
    (personId : Option ℕ) (confidence : ℚ) : DB × ℕ :=
  let face : Face :=
    { id := db.nextFaceId, photoId := photoId, embedding := embedding,
      boundingBox := boundingBox, personId := personId, confidence := confidence }
  ({ db with faces := db.faces ++ [face], nextFaceId := db.nextFaceId + 1 }, db.nextFaceId)

/-- `deleteFacesByPhotoId` (database module): counts, then
DELETE FROM faces WHERE photo_id = ?, returning the count. -/
def deleteFacesByPhotoId (db : DB) (photoId : ℕ) : DB × ℕ :=
  let count := (db.faces.filter (fun f => f.photoId == photoId)).length
  ({ db with faces := db.faces.filter (fun f => f.photoId != photoId) }, count)

/-- Detection quality tier (`FaceDetectionSettings.quality`). -/
inductive Quality where
  | fast
  | balanced
  | accurate
deriving DecidableEq, Repr

/-- `FaceDetectionSettings` from `shared/types.ts`. -/
structure FaceDetectionSettings where
  enabled : Bool
  sensitivity : ℚ
  minFaceSize : ℚ
  quality : Quality
  backgroundProcessing : Bool
deriving DecidableEq, Repr

/-! ## Detection pipeline (`detectFacesInPhotos`, faceDetection.ts 137-207)

The per-photo worker round trip (`detectFacesInPhoto`) is abstracted as an
oracle `detect : Photo → Except String (List Face)`: a successful detection
yields the faces reported by the worker (their `id`/`photoId` fields are the
worker's placeholder zeros and are ignored by the pipeline, which only reads
`embedding`, `boundingBox` and `confidence`), a failure yields the error
message of the rejected promise.  Repository operations are modelled as total
(the persistence layer is assumed reliable). -/

/-- The body of the `for (const photo of photos)` loop of
`detectFacesInPhotos`: delete the photo's previously stored faces, run
detection, and on success persist every detected face with `personId = null`.
Returns the new database state, the number of faces persisted, and the error
recorded on failure (`` `${photo.filename}: ${message}` ``). -/
def processPhoto (detect : Photo → Except String (List Face)) (db : DB) (photo : Photo) :
    DB × ℕ × Option String :=
  let db1 := (deleteFacesByPhotoId db photo.id).1
  match detect photo with
  | .ok faces =>
      let db2 := faces.foldl
        (fun d f => (insertFace d photo.id f.embedding f.boundingBox none f.confidence).1) db1
      (db2, faces.length, none)
  | .error e => (db1, 0, some (photo.filename ++ ": " ++ e))

/-- Aggregate result of a detection batch (`detectFacesInPhotos` return). -/
structure BatchResult where
  totalFaces : ℕ
  photosProcessed : ℕ
  errors : List String
deriving DecidableEq, Repr

/-- `detectFacesInPhotos` (faceDetection.ts 137-207): sequential loop over the
batch.  Note that the source increments `photosProcessed` in the `try` body
*and* in the `catch` handler, so every photo (successful or failed) counts. -/
def detectFacesInPhotos (detect : Photo → Except String (List Face))
    (photos : List Photo) (db : DB) : DB × BatchResult :=
  match photos with
  | [] => (db, { totalFaces := 0, photosProcessed := 0, errors := [] })
  | photo :: rest =>
      let step := processPhoto detect db photo
      let tail := detectFacesInPhotos detect rest step.1
      (tail.1,
        { totalFaces := step.2.1 + tail.2.totalFaces,
          photosProcessed := 1 + tail.2.photosProcessed,
          errors :=
            match step.2.2 with
            | some e => e :: tail.2.errors
            | none => tail.2.errors })

/-! ## Clustering engine (faceDetection.ts 212-324)

`calculateDistance` in the source returns `Math.sqrt(sum)` where `sum` is the
sum of squared component differences, and throws when the descriptor lengths
differ.  We embed `sum` itself (the square of the Euclidean distance) in exact
rationals and compare against squared thresholds; for positive thresholds the
comparisons coincide with the source's (`sqrt sum < t ↔ sum < t*t`). -/

/-- `calculateDistance` (faceDetection.ts 212-224), squared: `none` models the
thrown `Error('Descriptors must have the same length')`, `some s` the value
whose square root the source returns. -/
def calculateDistance (descriptor1 descriptor2 : List ℚ) : Option ℚ :=
  if descriptor1.length = descriptor2.length then
    some (((descriptor1.zip descriptor2).map (fun p => (p.1 - p.2) * (p.1 - p.2))).sum)
  else
    none

/-- The accumulation loop of `findSimilarFaces` (faceDetection.ts 236-241):
walk `allFaces` in order, compute each distance (a length mismatch anywhere
aborts, as the thrown exception would), and keep the pairs strictly under the
threshold. -/
def collectSimilar (targetDescriptor : List ℚ) (thresholdSq : ℚ) :
    List Face → Option (List (Face × ℚ))
  | [] => some []
  | face :: rest =>
      match calculateDistance targetDescriptor face.embedding,
            collectSimilar targetDescriptor thresholdSq rest with
      | some d, some tail => some (if d < thresholdSq then (face, d) :: tail else tail)
      | _, _ => none

/-- Stable insertion of `x` into an already-sorted list: `x` goes before the
first element whose key is not strictly smaller, so elements with equal keys
keep their original relative order. -/
def insertSorted (lt : α → α → Bool) (x : α) : List α → List α
  | [] => [x]
  | y :: ys => if lt y x then y :: insertSorted lt x ys else x :: y :: ys

/-- Stable sort by a strict comparison key, modelling the JavaScript
`Array.prototype.sort` with a numeric comparator (a stable ascending sort). -/
def sortBy (lt : α → α → Bool) : List α → List α
  | [] => []
  | x :: xs => insertSorted lt x (sortBy lt xs)

/-- `findSimilarFaces` (faceDetection.ts 229-247): collect the faces strictly
within the threshold, sort them by ascending distance, drop the distances. -/
def findSimilarFaces (targetDescriptor : List ℚ) (allFaces : List Face)
    (thresholdSq : ℚ) : Option (List Face) :=
  (collectSimilar targetDescriptor thresholdSq allFaces).map
    (fun pairs => (sortBy (fun a b => a.2 < b.2) pairs).map Prod.fst)

/-- `calculateAverageDescriptor` (faceDetection.ts 305-324): component-wise
mean, sized by the first descriptor (within one cluster all descriptors have
the length of the faces' embeddings, so the out-of-range default is unused). -/
def calculateAverageDescriptor (descriptors : List (List ℚ)) : List ℚ :=
  match descriptors with
  | [] => []
  | d0 :: _ =>
      (List.range d0.length).map
        (fun i => (descriptors.map (fun d => d.getD i 0)).sum / (descriptors.length : ℚ))

/-- A cluster as returned by `clusterFaces`: the source returns objects with
exactly the two fields `faceIds` and `averageDescriptor`. -/
structure Cluster where
  faceIds : List ℕ
  averageDescriptor : List ℚ
deriving DecidableEq, Repr

/-- The inner loop of `clusterFaces` (faceDetection.ts 276-282): walk the
similar faces in order, keep the ones not yet assigned, marking each kept face
assigned.  Returns the cluster's face ids, their descriptors, and the updated
assigned set. -/
def collectUnassigned : List Face → Finset ℕ → List ℕ × List (List ℚ) × Finset ℕ
  | [], assigned => ([], [], assigned)
  | face :: rest, assigned =>
      if face.id ∈ assigned then
        collectUnassigned rest assigned
      else
        let r := collectUnassigned rest (insert face.id assigned)
        (face.id :: r.1, face.embedding :: r.2.1, r.2.2)

/-- The outer loop of `clusterFaces` (faceDetection.ts 264-290): for each face
not yet assigned, gather its similar faces, form a cluster from the unassigned
ones, and emit it when non-empty. -/
def clusterFacesAux (allFaces : List Face) (thresholdSq : ℚ) :
    List Face → Finset ℕ → Option (List (List ℕ × List (List ℚ)))
  | [], _ => some []
  | face :: rest, assigned =>
      if face.id ∈ assigned then
        clusterFacesAux allFaces thresholdSq rest assigned
      else
        match findSimilarFaces face.embedding allFaces thresholdSq with
        | none => none
        | some similar =>
            let r := collectUnassigned similar assigned
            match clusterFacesAux allFaces thresholdSq rest r.2.2 with
            | none => none
            | some tail => some (if r.1.isEmpty then tail else (r.1, r.2.1) :: tail)

/-- `clusterFaces` (faceDetection.ts 253-300): greedy single-pass clustering;
`thresholdSq` is the square of the source's `distanceThreshold` (default 0.6,
so the default here is 0.36).  `none` models the exception thrown on a
descriptor-length mismatch. -/
def clusterFaces (allFaces : List Face) (thresholdSq : ℚ) : Option (List Cluster) :=
  if allFaces.isEmpty then
    some []
  else
    (clusterFacesAux allFaces thresholdSq allFaces ∅).map
      (List.map (fun c => { faceIds := c.1, averageDescriptor := calculateAverageDescriptor c.2 }))

/-- The face ids of a cluster list, in emission order. -/
def clusterIds (clusters : List Cluster) : List ℕ :=
  (clusters.map Cluster.faceIds).flatten

/-! ## Person directory and people-based photo filtering (database module) -/

/-- `deletePerson` (database module 382-389):
UPDATE faces SET person_id = NULL WHERE person_id = ?, then
DELETE FROM people WHERE id = ?. -/
def deletePerson (db : DB) (personId : ℕ) : DB :=
  { db with
    faces := db.faces.map
      (fun f => if f.personId = some personId then { f with personId := none } else f),
    people := db.people.filter (fun p => p.id != personId) }

/-- The computed `photo_count` column: `COUNT(DISTINCT f.photo_id)` over the
LEFT JOIN `faces f ON f.person_id = p.id`, i.e. the number of distinct photo
ids among the faces assigned to the person (0 when there are none). -/
def photoCountFor (faces : List Face) (personId : ℕ) : ℕ :=
  (((faces.filter (fun f => f.personId == some personId)).map Face.photoId).dedup).length

/-- `rowToPerson` applied to a joined row of `getAllPeople` / `getPersonById`:
the person's columns plus the computed `photo_count`. -/
def personToRow (faces : List Face) (p : Person) : PersonWithCount :=
  { id := p.id, name := p.name, representativeFaceId := p.representativeFaceId,
    photoCount := photoCountFor faces p.id }

/-- `getAllPeople` (database module 391-402): every person with its computed
`photo_count`, ORDER BY name ASC. -/
def getAllPeople (db : DB) : List PersonWithCount :=
  sortBy (fun a b => a.name < b.name) (db.people.map (personToRow db.faces))

/-- `getPersonById` (database module 404-416): the person row with the given
id (people ids are the primary key), with its computed `photo_count`. -/
def getPersonById (db : DB) (personId : ℕ) : Option PersonWithCount :=
  (db.people.find? (fun p => p.id == personId)).map (personToRow db.faces)

/-- SQL `f.person_id IN (personIds)`: true exactly for a non-null `person_id`
occurring in the list (NULL compares unknown, hence false). -/
def personIdMatches (personIds : List ℕ) (f : Face) : Bool :=
  match f.personId with
  | some q => personIds.contains q
  | none => false

/-- Filter mode of `getPhotosByPeople` (`'any' | 'only'`). -/
inductive FilterMode where
  | any
  | only
deriving DecidableEq, Repr

/-- ORDER BY capture_date ASC: SQL NULLs sort first under ascending order. -/
def captureDateLt (a b : Photo) : Bool :=
  match a.captureDate, b.captureDate with
  | none, none => false
  | none, some _ => true
  | some _, none => false
  | some x, some y => x < y

/-- The `'any'`-mode WHERE clause: the photo has at least one face whose
`person_id` is in `personIds` (the INNER JOIN on `f.photo_id = p.id`). -/
def hasAnyOf (faces : List Face) (personIds : List ℕ) (photoId : ℕ) : Bool :=
  faces.any (fun f => f.photoId == photoId && personIdMatches personIds f)

/-- The first subquery of the `'only'` mode: the photo id belongs to a group
(so it has at least one face with `person_id IN personIds`) whose
`COUNT(DISTINCT person_id)` equals the number of requested person ids. -/
def onlyGroupHolds (faces : List Face) (personIds : List ℕ) (photoId : ℕ) : Bool :=
  let matching := faces.filter (fun f => f.photoId == photoId && personIdMatches personIds f)
  !matching.isEmpty &&
    ((matching.filterMap Face.personId).dedup.length == personIds.length)

/-- SQL `q NOT IN (NULL, …, NULL)`: a comparison against a list containing a
NULL is never TRUE under three-valued logic, whatever `q` is. -/
def notInNulls (_q : ℕ) : Bool :=
  false

/-- The second subquery of the `'only'` mode *as executed*.  The query text of
the `'only'` branch (database module 443-461) interpolates `placeholders`
twice, so it contains `2n+1` parameter markers, but the bound array
`[...personIds, personIds.length]` supplies only `n+1` values; sql.js binds
positionally without a count check and SQLite leaves the remaining parameters
NULL.  The executed WHERE clause is therefore
`person_id NOT IN (NULL,…) AND person_id IS NOT NULL`, which never holds, so
the subquery selects no rows and the `p.id NOT IN (…)` exclusion is
inoperative: a face of an identified person outside `personIds` does *not*
disqualify a photo in the running program. -/
def hasOutsidePersonExecuted (faces : List Face) (photoId : ℕ) : Bool :=
  faces.any (fun f =>
    f.photoId == photoId &&
      match f.personId with
      | some q => notInNulls q
      | none => false)

/-- `getPhotosByPeople` (database module 429-464).  SELECT DISTINCT is
rendered by filtering the photo table directly (each photo row appears once)
followed by `dedup`; both modes keep only photos with `is_hidden = 0` and sort
by `capture_date` ascending.  The `'only'` branch embeds the query *as the
program runs it*: its `NOT IN` subquery executes with NULL parameters (see
`hasOutsidePersonExecuted`) and excludes nothing. -/
def getPhotosByPeople (db : DB) (personIds : List ℕ) (mode : FilterMode) : List Photo :=
  match mode with
  | .any =>
      sortBy captureDateLt
        ((db.photos.filter
          (fun p => hasAnyOf db.faces personIds p.id && !p.isHidden)).dedup)
  | .only =>
      sortBy captureDateLt
        ((db.photos.filter
          (fun p =>
            onlyGroupHolds db.faces personIds p.id &&
              !hasOutsidePersonExecuted db.faces p.id && !p.isHidden)).dedup)

/-! ## Worker protocol and the per-call response listener
(faceDetection.ts 96-132, faceWorker.ts 93-131) -/

/-- Messages sent by the worker process to the host (the `type`-tagged objects
of `faceWorker.ts`).  Note that `errorMsg` carries no photo id: the worker's
catch-all handler sends only `{ type: 'error', error }`. -/
inductive WorkerMessage where
  | ready
  | loadModelsResponse (success : Bool)
  | detectFacesResponse (photoId : ℕ) (faces : List Face)
  | errorMsg (error : String)
deriving DecidableEq, Repr

/-- The worker's reply to a `detect-faces` request (faceWorker.ts 103-127):
on success the reply echoes the request's `photoId`; on failure the catch
handler replies with an `error` message that carries no photo id.
`runDetect` abstracts the actual image decoding and neural inference. -/
def workerReplyToDetect (runDetect : String → FaceDetectionSettings → Except String (List Face))
    (photoId : ℕ) (photoPath : String) (settings : FaceDetectionSettings) : WorkerMessage :=
  match runDetect photoPath settings with
  | .ok faces => .detectFacesResponse photoId faces
  | .error e => .errorMsg e

/-- The `messageHandler` installed by `detectFacesInPhoto`
(faceDetection.ts 105-113): `some (.ok …)` resolve, `some (.error …)` reject
(both remove the listener), `none` leave the listener installed.  The resolve
branch checks `message.photoId === photo.id`; the reject branch checks only
`message.type === 'error'`. -/
def handleDetectMessage (photo : Photo) (msg : WorkerMessage) :
    Option (Except String (List Face)) :=
  match msg with
  | .detectFacesResponse pid faces => if pid = photo.id then some (.ok faces) else none
  | .errorMsg e => some (.error e)
  | _ => none

/-- What a `detect` call can observe: an incoming worker message, or the
firing of its own 60-second timer (faceDetection.ts 127-131). -/
inductive CallEvent where
  | msg (m : WorkerMessage)
  | timeout
deriving DecidableEq, Repr

/-- The state a `detect` call's promise ends in. -/
inductive CallOutcome where
  | pending
  | resolved (faces : List Face)
  | rejected (error : String)
deriving DecidableEq, Repr

/-- The outcome of the promise returned by `detectFacesInPhoto` for `photo`
after the events of one call arrive in order: the first event the handler
settles on decides the promise (a promise settles at most once), the timer
rejects with `` `Timeout detecting faces in ${photo.filename}` ``. -/
def detectOutcome (photo : Photo) : List CallEvent → CallOutcome
  | [] => .pending
  | .timeout :: _ => .rejected ("Timeout detecting faces in " ++ photo.filename)
  | .msg m :: rest =>
      match handleDetectMessage photo m with
      | some (.ok faces) => .resolved faces
      | some (.error e) => .rejected e
      | none => detectOutcome photo rest

/-! ## Concrete fixtures used by witnesses and counterexamples -/

/-- A bounding box used by concrete witnesses. -/
def boxW : BoundingBox := { x := 0, y := 0, width := 10, height := 10 }

/-- Detection settings used by concrete witnesses. -/
def settingsW : FaceDetectionSettings :=
  { enabled := true
    sensitivity := 1/2
    minFaceSize := 20
    quality := .balanced
    backgroundProcessing := false }

/-- An unassigned face with a one-dimensional zero descriptor. -/
def faceW1 : Face :=
  { id := 1
    photoId := 1
    embedding := [0]
    boundingBox := boxW
    personId := none
    confidence := 1 }

/-- A photo used by concrete witnesses. -/
def photoW : Photo :=
  { id := 1
    path := "/a.jpg"
    filename := "a.jpg"
    captureDate := none
    weekNumber := none
    year := none
    exifData := none
    thumbnailPath := none
    isFavorite := false
    subdirectory := none
    isHidden := false
    createdAt := 0 }

/-- A database with one visible photo, one face assigned to person 1, and
person 1 on file. -/
def dbW : DB :=
  { photos := [photoW]
    faces := [{ faceW1 with personId := some 1 }]
    people := [{ id := 1, name := "A", representativeFaceId := none }]
    nextFaceId := 2 }

/-! ## Generic facts about the stable sort helper -/

theorem insertSorted_perm (lt : α → α → Bool) (x : α) (l : List α) :
    (insertSorted lt x l).Perm (x :: l) := by
  induction l with
  | nil => exact List.Perm.refl _
  | cons y ys ih =>
      unfold insertSorted
      cases h : lt y x with
      | false => simp [h]
      | true =>
          simp only [h, if_true]
          exact (ih.cons y).trans (List.Perm.swap x y ys)

theorem sortBy_perm (lt : α → α → Bool) (l : List α) : (sortBy lt l).Perm l := by
  induction l with
  | nil => exact List.Perm.refl _
  | cons x xs ih =>
      exact (insertSorted_perm lt x (sortBy lt xs)).trans (ih.cons x)

theorem mem_sortBy {lt : α → α → Bool} {a : α} {l : List α} :
    a ∈ sortBy lt l ↔ a ∈ l :=
  (sortBy_perm lt l).mem_iff

theorem insertSorted_map (f : α → β) (ltA : α → α → Bool) (ltB : β → β → Bool)
    (hf : ∀ a b, ltB (f a) (f b) = ltA a b) (x : α) (l : List α) :
    insertSorted ltB (f x) (l.map f) = (insertSorted ltA x l).map f := by
  induction l with
  | nil => rfl
  | cons y ys ih =>
      simp only [List.map_cons, insertSorted, hf]
      by_cases h : ltA y x = true
      · simp [h, ih]
      · simp [h]

theorem sortBy_map (f : α → β) (ltA : α → α → Bool) (ltB : β → β → Bool)
    (hf : ∀ a b, ltB (f a) (f b) = ltA a b) (l : List α) :
    sortBy ltB (l.map f) = (sortBy ltA l).map f := by
  induction l with
  | nil => rfl
  | cons x xs ih => simp only [List.map_cons, sortBy, ih, insertSorted_map f ltA ltB hf]

/-! ## Claim C5: the batch aggregate -/

/-- Claim C5 counterexample: a batch with a single photo whose detection fails
ends with `photosProcessed = 1` (and the photo's entry in `errors`), while the
claim — `photosProcessed` equals the number of *successfully* processed
photos — would require `photosProcessed = 0` here.  The source increments
`photosProcessed` in the `catch` handler as well, so it counts attempted
photos, not successful ones. -/
theorem detectFacesInPhotos_counts_failed_photos :
    (detectFacesInPhotos (fun _ => .error "boom") [photoW] dbW).2.photosProcessed = 1 ∧
      (detectFacesInPhotos (fun _ => .error "boom") [photoW] dbW).2.errors = ["a.jpg: boom"] ∧
      (detectFacesInPhotos (fun _ => .error "boom") [photoW] dbW).2.totalFaces = 0 := by
  refine ⟨by simp [detectFacesInPhotos, processPhoto, deleteFacesByPhotoId], ?_,
    by simp [detectFacesInPhotos, processPhoto, deleteFacesByPhotoId]⟩
  simp only [detectFacesInPhotos, processPhoto, deleteFacesByPhotoId]
  rfl

/-- The batch loop counts every attempted photo in `photosProcessed`. -/
theorem batchProcessed_eq_length (detect : Photo → Except String (List Face))
    (photos : List Photo) : ∀ db : DB,
    (detectFacesInPhotos detect photos db).2.photosProcessed = photos.length := by
  induction photos with
  | nil => intro db; simp [detectFacesInPhotos]
  | cons p rest ih =>
      intro db
      simp only [detectFacesInPhotos, List.length_cons, ih]
      omega

/-- The batch loop sums the detected-face counts over the successful photos. -/
theorem batchTotalFaces_eq (detect : Photo → Except String (List Face))
    (photos : List Photo) : ∀ db : DB,
    (detectFacesInPhotos detect photos db).2.totalFaces =
      (photos.map (fun p =>
        match detect p with
        | .ok faces => faces.length
        | .error _ => 0)).sum := by
  induction photos with
  | nil => intro db; simp [detectFacesInPhotos]
  | cons p rest ih =>
      intro db
      simp only [detectFacesInPhotos]
      cases hd : detect p with
      | ok faces =>
          have hc : (processPhoto detect db p).2.1 = faces.length := by
            simp [processPhoto, hd]
          simp [ih, hc, hd]
      | error e =>
          have hc : (processPhoto detect db p).2.1 = 0 := by
            simp [processPhoto, hd]
          simp [ih, hc, hd]

/-- The batch loop records one `` `${filename}: ${message}` `` entry per
failed photo, in batch order. -/
theorem batchErrors_eq (detect : Photo → Except String (List Face))
    (photos : List Photo) : ∀ db : DB,
    (detectFacesInPhotos detect photos db).2.errors =
      photos.filterMap (fun p =>
        match detect p with
        | .ok _ => none
        | .error e => some (p.filename ++ ": " ++ e)) := by
  induction photos with
  | nil => intro db; simp [detectFacesInPhotos]
  | cons p rest ih =>
      intro db
      simp only [detectFacesInPhotos]
      cases hd : detect p with
      | ok faces =>
          have he : (processPhoto detect db p).2.2 = none := by
            simp [processPhoto, hd]
          simp [ih, he, hd]
      | error e =>
          have he : (processPhoto detect db p).2.2 = some (p.filename ++ ": " ++ e) := by
            simp [processPhoto, hd]
          simp [ih, he, hd]

/-- Claim C5 (amended): for every batch, `photosProcessed` equals the number
of *attempted* photos (successes and failures alike), `totalFaces` is the sum
of the per-photo face counts over the successful photos, and `errors` holds
exactly one `` `${filename}: ${message}` `` entry per failed photo, in batch
order — so successes and failures are reported together. -/
theorem detectFacesInPhotos_aggregate (detect : Photo → Except String (List Face))
    (photos : List Photo) (db : DB) :
    (detectFacesInPhotos detect photos db).2.photosProcessed = photos.length ∧
      (detectFacesInPhotos detect photos db).2.totalFaces =
        (photos.map (fun p =>
          match detect p with
          | .ok faces => faces.length
          | .error _ => 0)).sum ∧
      (detectFacesInPhotos detect photos db).2.errors =
        photos.filterMap (fun p =>
          match detect p with
          | .ok _ => none
          | .error e => some (p.filename ++ ": " ++ e)) :=
  ⟨batchProcessed_eq_length detect photos db, batchTotalFaces_eq detect photos db,
    batchErrors_eq detect photos db⟩

/-! ## Claim C10: hidden photos are never returned by people filtering -/

/-- Claim C10: for every database, person-id list and mode, `getPhotosByPeople`
never returns a photo whose `is_hidden` flag is set — both the `'any'` and the
`'only'` query end their WHERE clause with `p.is_hidden = 0`. -/
theorem getPhotosByPeople_excludes_hidden (db : DB) (personIds : List ℕ)
    (mode : FilterMode) (photo : Photo) (hmem : photo ∈ getPhotosByPeople db personIds mode) :
    photo.isHidden = false := by
  cases mode <;>
  · simp only [getPhotosByPeople] at hmem
    rw [mem_sortBy] at hmem
    have h := List.mem_filter.mp (List.mem_dedup.mp hmem)
    simp only [Bool.and_eq_true, Bool.not_eq_true'] at h
    exact h.2.2

/-- Witness for C10 at a concrete database: `photoW` is returned by an
`'any'`-mode query and is indeed not hidden. -/
theorem getPhotosByPeople_excludes_hidden_witness :
    photoW ∈ getPhotosByPeople dbW [1] .any ∧ photoW.isHidden = false := by
  have hmem : photoW ∈ getPhotosByPeople dbW [1] .any := by
    have h : getPhotosByPeople dbW [1] .any = [photoW] := by
      simp [getPhotosByPeople, dbW, hasAnyOf, personIdMatches, sortBy, insertSorted,
        photoW, faceW1]
    rw [h]
    exact List.mem_singleton.mpr rfl
  exact ⟨hmem, getPhotosByPeople_excludes_hidden dbW [1] .any photoW hmem⟩

/-! ## Claim C7: `deletePerson` unassigns faces and removes only the person -/

/-- Claim C7: `deletePerson id` touches no face record except to null the
`personId` of the faces assigned to `id`: the face table keeps its length and
order, every face keeps its `id`, `photoId`, `embedding`, `boundingBox` and
`confidence`, a face of another (or no) person is entirely unchanged, and a
face of person `id` ends with `personId = null`.  The person table loses
exactly the records with that id, so `getAllPeople` no longer lists it. -/
theorem deletePerson_unassigns_without_deleting (db : DB) (pid : ℕ) :
    (deletePerson db pid).faces.length = db.faces.length ∧
      (∀ (i : ℕ) (h1 : i < db.faces.length) (h2 : i < (deletePerson db pid).faces.length),
        ((deletePerson db pid).faces.get ⟨i, h2⟩).id = (db.faces.get ⟨i, h1⟩).id ∧
        ((deletePerson db pid).faces.get ⟨i, h2⟩).photoId = (db.faces.get ⟨i, h1⟩).photoId ∧
        ((deletePerson db pid).faces.get ⟨i, h2⟩).embedding = (db.faces.get ⟨i, h1⟩).embedding ∧
        ((deletePerson db pid).faces.get ⟨i, h2⟩).boundingBox
          = (db.faces.get ⟨i, h1⟩).boundingBox ∧
        ((deletePerson db pid).faces.get ⟨i, h2⟩).confidence
          = (db.faces.get ⟨i, h1⟩).confidence ∧
        ((db.faces.get ⟨i, h1⟩).personId = some pid →
          ((deletePerson db pid).faces.get ⟨i, h2⟩).personId = none) ∧
        ((db.faces.get ⟨i, h1⟩).personId ≠ some pid →
          (deletePerson db pid).faces.get ⟨i, h2⟩ = db.faces.get ⟨i, h1⟩)) ∧
      (∀ p : Person, p ∈ (deletePerson db pid).people ↔ p ∈ db.people ∧ p.id ≠ pid) ∧
      (∀ row ∈ getAllPeople (deletePerson db pid), row.id ≠ pid) := by
  refine ⟨by simp [deletePerson], ?_, ?_, ?_⟩
  · intro i h1 h2
    have hg : (deletePerson db pid).faces.get ⟨i, h2⟩ =
        (fun f => if f.personId = some pid then { f with personId := none } else f)
          (db.faces.get ⟨i, h1⟩) := by
      simp [deletePerson, List.get_eq_getElem]
    set f := db.faces.get ⟨i, h1⟩ with hf
    by_cases hp : f.personId = some pid
    · rw [hg]
      simp [hp]
    · rw [hg]
      simp [hp]
  · intro p
    simp [deletePerson, List.mem_filter]
  · intro row hrow
    simp only [getAllPeople] at hrow
    rw [mem_sortBy] at hrow
    obtain ⟨p, hp, rfl⟩ := List.mem_map.mp hrow
    have := (List.mem_filter.mp hp).2
    simp only [bne_iff_ne, ne_eq] at this
    simpa [personToRow] using this

/-- Witness for C7 at a concrete database: deleting person 1 from `dbW` keeps
the single face (now unassigned) and drops person 1 from `getAllPeople`. -/
theorem deletePerson_unassigns_witness :
    (deletePerson dbW 1).faces.length = dbW.faces.length ∧
      ((deletePerson dbW 1).faces.get ⟨0, by simp [deletePerson, dbW]⟩).personId = none ∧
      (∀ row ∈ getAllPeople (deletePerson dbW 1), row.id ≠ 1) := by
  obtain ⟨h1, h2, _, h4⟩ := deletePerson_unassigns_without_deleting dbW 1
  refine ⟨h1, ?_, h4⟩
  exact (h2 0 (by simp [dbW]) (by simp [deletePerson, dbW])).2.2.2.2.2.1
    (by simp [dbW, faceW1])

/-! ## Claim C8: `photoCount` counts distinct photos, not faces -/

/-- Claim C8: every person row produced by `getAllPeople` or `getPersonById`
carries a `photoCount` equal to the number of *distinct* photo ids among the
faces assigned to that person (`COUNT(DISTINCT f.photo_id)`), and 0 when the
person has no assigned face. -/
theorem photoCount_counts_distinct_photos (db : DB) (row : PersonWithCount)
    (hrow : row ∈ getAllPeople db ∨ getPersonById db row.id = some row) :
    row.photoCount =
      ((db.faces.filter (fun f => f.personId == some row.id)).map Face.photoId).toFinset.card ∧
      ((∀ f ∈ db.faces, f.personId ≠ some row.id) → row.photoCount = 0) := by
  have hmain : row.photoCount =
      ((db.faces.filter (fun f => f.personId == some row.id)).map Face.photoId).toFinset.card := by
    rcases hrow with hall | hone
    · simp only [getAllPeople] at hall
      rw [mem_sortBy] at hall
      obtain ⟨p, _, rfl⟩ := List.mem_map.mp hall
      simp [personToRow, photoCountFor, List.card_toFinset]
    · simp only [getPersonById] at hone
      obtain ⟨p, _, hrow⟩ := Option.map_eq_some'.mp hone
      rw [← hrow]
      simp [personToRow, photoCountFor, List.card_toFinset]
  refine ⟨hmain, fun hnone => ?_⟩
  rw [hmain]
  have : db.faces.filter (fun f => f.personId == some row.id) = [] := by
    rw [List.filter_eq_nil_iff]
    intro f hf
    simpa using hnone f hf
  simp [this]

/-- Witness for C8 at a concrete database: person 1 of `dbW` is listed by
`getAllPeople` with `photoCount` equal to its one distinct photo. -/
theorem photoCount_counts_distinct_photos_witness :
    ({ id := 1, name := "A", representativeFaceId := none, photoCount := 1 } : PersonWithCount)
        ∈ getAllPeople dbW ∧
      (1 : ℕ) =
        ((dbW.faces.filter (fun f => f.personId == some 1)).map Face.photoId).toFinset.card := by
  have hmem : ({ id := 1, name := "A", representativeFaceId := none, photoCount := 1 } :
      PersonWithCount) ∈ getAllPeople dbW := by
    have h : getAllPeople dbW =
        [{ id := 1, name := "A", representativeFaceId := none, photoCount := 1 }] := by
      simp [getAllPeople, dbW, sortBy, insertSorted, personToRow, photoCountFor, faceW1]
    rw [h]
    exact List.mem_singleton.mpr rfl
  exact ⟨hmem,
    (photoCount_counts_distinct_photos dbW _ (Or.inl hmem)).1⟩

/-! ## Claim C4: correlation of responses with in-flight detect calls -/

/-- Claim C4 counterexample: the worker's reply to a *failed* request for
photo 2 is an `error` message carrying no photo id, and the listener installed
for `photoW` (photo 1) settles on it: the call for photo 1 is rejected by an
error response belonging to another photo's request.  The resolve branch of
the listener checks `message.photoId === photo.id`, but the reject branch
checks only `message.type === 'error'`. -/
theorem detect_error_misattributed :
    photoW.id ≠ 2 ∧
      workerReplyToDetect (fun _ _ => .error "image decode failed") 2 "/b.jpg" settingsW
        = .errorMsg "image decode failed" ∧
      detectOutcome photoW
          [CallEvent.msg
            (workerReplyToDetect (fun _ _ => .error "image decode failed") 2 "/b.jpg" settingsW)]
        = .rejected "image decode failed" := by
  refine ⟨by simp [photoW], rfl, ?_⟩
  simp [detectOutcome, handleDetectMessage, workerReplyToDetect]

/-- Claim C4 (amended): the promise of a `detect` call for `photo` resolves
only upon a `detect-faces-response` whose correlation key equals `photo.id`
(a success response for a different photo is ignored and the listener stays
installed), but it rejects upon *any* `error` message from the worker:
worker error messages carry no correlation key, so an error raised by a
different photo's request also settles this call. -/
theorem detectOutcome_correlation (photo : Photo) :
    (∀ (events : List CallEvent) (faces : List Face),
      detectOutcome photo events = .resolved faces →
        CallEvent.msg (.detectFacesResponse photo.id faces) ∈ events) ∧
      (∀ (pid : ℕ) (faces : List Face) (rest : List CallEvent), pid ≠ photo.id →
        detectOutcome photo (CallEvent.msg (.detectFacesResponse pid faces) :: rest)
          = detectOutcome photo rest) ∧
      (∀ (e : String) (rest : List CallEvent),
        detectOutcome photo (CallEvent.msg (.errorMsg e) :: rest) = .rejected e) := by
  refine ⟨?_, ?_, ?_⟩
  · intro events
    induction events with
    | nil => intro faces h; simp [detectOutcome] at h
    | cons ev rest ih =>
        intro faces h
        cases ev with
        | timeout => simp [detectOutcome] at h
        | msg m =>
            cases m with
            | ready =>
                exact List.mem_cons_of_mem _ (ih faces (by simpa [detectOutcome,
                  handleDetectMessage] using h))
            | loadModelsResponse success =>
                exact List.mem_cons_of_mem _ (ih faces (by simpa [detectOutcome,
                  handleDetectMessage] using h))
            | errorMsg e => simp [detectOutcome, handleDetectMessage] at h
            | detectFacesResponse pid fs =>
                by_cases hpid : pid = photo.id
                · subst hpid
                  simp only [detectOutcome, handleDetectMessage, if_pos rfl] at h
                  obtain rfl : fs = faces := by injection h
                  exact List.mem_cons_self _ _
                · refine List.mem_cons_of_mem _ (ih faces ?_)
                  simpa [detectOutcome, handleDetectMessage, hpid] using h
  · intro pid faces rest hpid
    simp [detectOutcome, handleDetectMessage, hpid]
  · intro e rest
    simp [detectOutcome, handleDetectMessage]

/-- Witness for C4's amended statement: a success response for photo 2 leaves
the call for `photoW` (photo 1) pending, and a following error message
rejects it. -/
theorem detectOutcome_correlation_witness :
    (2 : ℕ) ≠ photoW.id ∧
      detectOutcome photoW
          [CallEvent.msg (.detectFacesResponse 2 []), CallEvent.msg (.errorMsg "x")]
        = .rejected "x" := by
  have h := detectOutcome_correlation photoW
  refine ⟨by simp [photoW], ?_⟩
  rw [h.2.1 2 [] _ (by simp [photoW])]
  exact h.2.2 "x" []

/-! ## Claim C9: the per-call timeout rejects instead of hanging -/

/-- Claim C9: if no message the listener settles on (no matching
`detect-faces-response` and no `error`) arrives before the per-call 60-second
timer fires, the timer's callback rejects the promise with the timeout error
naming the photo (`` `Timeout detecting faces in ${photo.filename}` ``, the
spec's `DetectionTimeoutError`), so the call does not stay pending; and a
photo whose `detect` call fails still lets the batch loop count every photo
and merely record the error, so the batch proceeds instead of hanging. -/
theorem detect_timeout_rejects (photo : Photo) (pre : List WorkerMessage)
    (post : List CallEvent)
    (hpre : ∀ m ∈ pre, handleDetectMessage photo m = none) :
    detectOutcome photo (pre.map CallEvent.msg ++ CallEvent.timeout :: post)
      = .rejected ("Timeout detecting faces in " ++ photo.filename) ∧
      ∀ (detect : Photo → Except String (List Face)) (rest : List Photo) (db : DB) (e : String),
        detect photo = .error e →
          (detectFacesInPhotos detect (photo :: rest) db).2.photosProcessed
            = rest.length + 1 ∧
          (photo.filename ++ ": " ++ e)
            ∈ (detectFacesInPhotos detect (photo :: rest) db).2.errors := by
  constructor
  · induction pre with
    | nil => simp [detectOutcome]
    | cons m ms ih =>
        have hm : handleDetectMessage photo m = none := hpre m (List.mem_cons_self _ _)
        have hms : ∀ x ∈ ms, handleDetectMessage photo x = none := fun x hx =>
          hpre x (List.mem_cons_of_mem _ hx)
        simpa [detectOutcome, hm] using ih hms
  · intro detect rest db e hd
    refine ⟨by simp [batchProcessed_eq_length], ?_⟩
    rw [batchErrors_eq]
    simp [hd]

/-- Witness for C9: with one ignored (other-photo) response before the timer
fires, the call for `photoW` rejects with the timeout error, and a batch whose
head photo fails records the failure and still counts both photos. -/
theorem detect_timeout_rejects_witness :
    (∀ m ∈ [WorkerMessage.detectFacesResponse 2 []],
        handleDetectMessage photoW m = none) ∧
      detectOutcome photoW
          ([WorkerMessage.detectFacesResponse 2 []].map CallEvent.msg
            ++ CallEvent.timeout :: [])
        = .rejected ("Timeout detecting faces in " ++ photoW.filename) ∧
      (fun _ => (.error "t" : Except String (List Face))) photoW = .error "t" ∧
      (detectFacesInPhotos (fun _ => .error "t") [photoW, photoW] dbW).2.photosProcessed
        = 2 ∧
      (photoW.filename ++ ": " ++ "t")
        ∈ (detectFacesInPhotos (fun _ => .error "t") [photoW, photoW] dbW).2.errors := by
  have hpre : ∀ m ∈ [WorkerMessage.detectFacesResponse 2 []],
      handleDetectMessage photoW m = none := by
    intro m hm
    simp only [List.mem_singleton] at hm
    subst hm
    simp [handleDetectMessage, photoW]
  have h := detect_timeout_rejects photoW [WorkerMessage.detectFacesResponse 2 []] [] hpre
  have h2 := h.2 (fun _ => .error "t") [photoW] dbW "t" rfl
  exact ⟨hpre, h.1, rfl, h2.1, h2.2⟩

/-! ## Claim C6: re-detection supersedes a photo's prior faces -/

/-- The detection payload of a face record: the fields the pipeline copies
from a worker detection into the inserted row. -/
def facePayload (f : Face) : List ℚ × BoundingBox × ℚ :=
  (f.embedding, f.boundingBox, f.confidence)

/-- Folding `insertFace` over a detection result appends fresh rows carrying
the target photo id, a null `personId`, and the detections' payloads. -/
theorem insertFold_faces (photoId : ℕ) (faces : List Face) : ∀ db1 : DB,
    ∃ news : List Face,
      (faces.foldl
          (fun d f => (insertFace d photoId f.embedding f.boundingBox none f.confidence).1)
          db1).faces
        = db1.faces ++ news ∧
      news.map facePayload = faces.map facePayload ∧
      ∀ f ∈ news, f.photoId = photoId ∧ f.personId = none := by
  induction faces with
  | nil => intro db1; exact ⟨[], by simp, by simp, by simp⟩
  | cons f fs ih =>
      intro db1
      obtain ⟨news', h1, h2, h3⟩ :=
        ih (insertFace db1 photoId f.embedding f.boundingBox none f.confidence).1
      refine ⟨⟨db1.nextFaceId, photoId, f.embedding, f.boundingBox, none, f.confidence⟩ :: news',
        ?_, ?_, ?_⟩
      · simp only [List.foldl_cons]
        rw [h1]
        simp [insertFace]
      · simp [h2, facePayload]
      · intro g hg
        rcases List.mem_cons.mp hg with rfl | hg'
        · exact ⟨rfl, rfl⟩
        · exact h3 g hg'

/-- One pass of the batch loop over `photo`: the stored faces become the old
table minus the rows with that photo id (the `deleteFacesByPhotoId` that runs
first), followed by the freshly inserted rows — which carry the photo's id, a
null `personId`, and exactly the successful detection's payloads (none on
failure). -/
theorem processPhoto_faces (detect : Photo → Except String (List Face)) (db : DB) (p : Photo) :
    ∃ news : List Face,
      (processPhoto detect db p).1.faces
        = db.faces.filter (fun f => f.photoId != p.id) ++ news ∧
      (∀ f ∈ news, f.photoId = p.id ∧ f.personId = none) ∧
      news.map facePayload
        = (match detect p with
           | .ok ds => ds.map facePayload
           | .error _ => []) := by
  cases hd : detect p with
  | ok ds =>
      obtain ⟨news, h1, h2, h3⟩ :=
        insertFold_faces p.id ds (deleteFacesByPhotoId db p.id).1
      refine ⟨news, ?_, h3, by simp [h2]⟩
      simp only [processPhoto, hd]
      rw [h1]
      simp [deleteFacesByPhotoId]
  | error e =>
      refine ⟨[], ?_, by simp, by simp⟩
      simp [processPhoto, hd, deleteFacesByPhotoId]

/-- Processing a photo with a different id leaves the rows of photo `pid`
untouched. -/
theorem processPhoto_filter_frame (detect : Photo → Except String (List Face))
    (db : DB) (q : Photo) (pid : ℕ) (hne : q.id ≠ pid) :
    (processPhoto detect db q).1.faces.filter (fun f => f.photoId == pid)
      = db.faces.filter (fun f => f.photoId == pid) := by
  obtain ⟨news, h1, h2, _⟩ := processPhoto_faces detect db q
  rw [h1, List.filter_append]
  have hnews : news.filter (fun f => f.photoId == pid) = [] := by
    rw [List.filter_eq_nil_iff]
    intro f hf
    have := (h2 f hf).1
    simp [this, hne]
  rw [hnews, List.append_nil, List.filter_filter]
  apply List.filter_congr
  intro f _
  by_cases h : f.photoId = pid
  · simp [h, Ne.symm hne]
  · simp [h]

/-- A batch containing no photo with id `pid` leaves the rows of photo `pid`
untouched. -/
theorem batch_filter_frame (detect : Photo → Except String (List Face))
    (photos : List Photo) (pid : ℕ) (hall : ∀ q ∈ photos, q.id ≠ pid) : ∀ db : DB,
    (detectFacesInPhotos detect photos db).1.faces.filter (fun f => f.photoId == pid)
      = db.faces.filter (fun f => f.photoId == pid) := by
  induction photos with
  | nil => intro db; simp [detectFacesInPhotos]
  | cons q rest ih =>
      intro db
      have hq : q.id ≠ pid := hall q (List.mem_cons_self _ _)
      have hrest : ∀ x ∈ rest, x.id ≠ pid := fun x hx => hall x (List.mem_cons_of_mem _ hx)
      simp only [detectFacesInPhotos]
      rw [ih hrest, processPhoto_filter_frame detect db q pid hq]

/-- Claim C6: for every photo `p` of a batch over photos with pairwise
distinct ids, (i) each pass of the loop first removes all previously stored
rows with `p`'s photo id and only then appends the newly inserted rows, every
one of which has `personId = null`; and (ii) after the whole batch the rows
stored for `p` are exactly the rows of the new run: their payloads coincide
one-for-one with the successful detection's result (none when detection
failed), so repeated runs do not accumulate faces. -/
theorem detectFacesInPhotos_supersedes (detect : Photo → Except String (List Face))
    (photos : List Photo) (db : DB) (p : Photo)
    (hnodup : (photos.map Photo.id).Nodup) (hmem : p ∈ photos) :
    (∀ db' : DB, ∃ news : List Face,
      (processPhoto detect db' p).1.faces
        = db'.faces.filter (fun f => f.photoId != p.id) ++ news ∧
      (∀ f ∈ news, f.photoId = p.id ∧ f.personId = none) ∧
      news.map facePayload
        = (match detect p with
           | .ok ds => ds.map facePayload
           | .error _ => [])) ∧
    ∃ news : List Face,
      (detectFacesInPhotos detect photos db).1.faces.filter (fun f => f.photoId == p.id)
        = news ∧
      (∀ f ∈ news, f.personId = none) ∧
      news.map facePayload
        = (match detect p with
           | .ok ds => ds.map facePayload
           | .error _ => []) := by
  refine ⟨fun db' => processPhoto_faces detect db' p, ?_⟩
  induction photos generalizing db with
  | nil => cases hmem
  | cons q rest ih =>
      rcases List.mem_cons.mp hmem with rfl | hp
      · -- the head of the batch is `p` itself
        obtain ⟨news, h1, h2, h3⟩ := processPhoto_faces detect db p
        refine ⟨news, ?_, fun f hf => (h2 f hf).2, h3⟩
        simp only [detectFacesInPhotos]
        have hrest : ∀ x ∈ rest, x.id ≠ p.id := by
          intro x hx hxeq
          have : p.id ∈ rest.map Photo.id := hxeq ▸ List.mem_map_of_mem Photo.id hx
          exact (List.nodup_cons.mp (by simpa using hnodup)).1 this
        rw [batch_filter_frame detect rest p.id hrest, h1, List.filter_append]
        have hold : (db.faces.filter (fun f => f.photoId != p.id)).filter
            (fun f => f.photoId == p.id) = [] := by
          rw [List.filter_filter, List.filter_eq_nil_iff]
          intro f _
          by_cases h : f.photoId = p.id <;> simp [h]
        have hnew : news.filter (fun f => f.photoId == p.id) = news :=
          List.filter_eq_self.mpr (fun f hf => by simp [(h2 f hf).1])
        rw [hold, hnew, List.nil_append]
      · -- `p` occurs later in the batch
        have hnodup' : (rest.map Photo.id).Nodup := (List.nodup_cons.mp (by simpa using hnodup)).2
        simpa only [detectFacesInPhotos] using ih ((processPhoto detect db q).1) hnodup' hp

/-- Witness for C6 at a concrete batch: re-detecting `photoW` (which already
has a stored face in `dbW`) replaces its rows with the single new detection,
stored unassigned. -/
theorem detectFacesInPhotos_supersedes_witness :
    ((([photoW].map Photo.id).Nodup) ∧ photoW ∈ [photoW]) ∧
      ∃ news : List Face,
        ((detectFacesInPhotos (fun _ => .ok [faceW1]) [photoW] dbW).1.faces.filter
            (fun f => f.photoId == photoW.id)) = news ∧
        (∀ f ∈ news, f.personId = none) ∧
        news.map facePayload
          = (match (fun (_ : Photo) => (.ok [faceW1] : Except String (List Face))) photoW with
             | .ok ds => ds.map facePayload
             | .error _ => []) := by
  refine ⟨⟨by simp, by simp⟩, ?_⟩
  exact (detectFacesInPhotos_supersedes (fun _ => .ok [faceW1]) [photoW] dbW photoW
    (by simp) (by simp)).2

/-! ## Claim C2: the `'only'` filter mode -/

/-- Modelled from the spec (refinement comparison for claim C2): the inclusion
predicate the claim states for `"only"` mode — the photo is not hidden, every
face with a non-null `personId` has its `personId` in `personIds`, and at
least one face's `personId` is in `personIds`. -/
def specOnlyIncluded (faces : List Face) (personIds : List ℕ) (photo : Photo) : Bool :=
  !photo.isHidden &&
    (faces.filter (fun f => f.photoId == photo.id)).all
      (fun f =>
        match f.personId with
        | some q => personIds.contains q
        | none => true) &&
    faces.any (fun f => f.photoId == photo.id && personIdMatches personIds f)

/-- A database whose one photo carries faces of two different identified
persons, 1 and 2. -/
def dbAB : DB :=
  { photos := [photoW]
    faces := [{ faceW1 with personId := some 1 }, { faceW1 with id := 2, personId := some 2 }]
    people := [{ id := 1, name := "A", representativeFaceId := none },
               { id := 2, name := "B", representativeFaceId := none }]
    nextFaceId := 3 }

/-- Claim C2 counterexample, both directions.  (i) In `dbAB`, `photoW` carries
a face of person 1 and a face of person 2, so the claim's predicate for
`personIds = [1]` rejects it ("a photo with Faces for A and B is excluded");
yet the query *returns* it: the `NOT IN` exclusion subquery runs with NULL
parameters (the query text has `2n+1` placeholders but only `n+1` values are
bound) and excludes nothing.  (ii) In `dbW`, `photoW`'s only face belongs to
person 1, so the claim's predicate for `personIds = [1, 2]` accepts it (every
identified face is in the list, and at least one is); yet the query returns
nothing, because `HAVING COUNT(DISTINCT person_id) = 2` requires *all*
requested people to appear in the photo. -/
theorem getPhotosByPeople_only_claim_refuted :
    (specOnlyIncluded dbAB.faces [1] photoW = false ∧
        photoW ∈ getPhotosByPeople dbAB [1] .only) ∧
      specOnlyIncluded dbW.faces [1, 2] photoW = true ∧
        getPhotosByPeople dbW [1, 2] .only = [] := by
  refine ⟨⟨?_, ?_⟩, ?_, ?_⟩
  · simp [specOnlyIncluded, dbAB, photoW, faceW1, personIdMatches]
  · have h : getPhotosByPeople dbAB [1] .only = [photoW] := by
      simp [getPhotosByPeople, dbAB, onlyGroupHolds, hasOutsidePersonExecuted, notInNulls,
        personIdMatches, sortBy, insertSorted, photoW, faceW1]
    rw [h]
    exact List.mem_singleton.mpr rfl
  · simp [specOnlyIncluded, dbW, photoW, faceW1, personIdMatches]
  · simp [getPhotosByPeople, dbW, onlyGroupHolds, hasOutsidePersonExecuted, notInNulls,
      personIdMatches, sortBy, insertSorted, photoW, faceW1]

/-- The `'only'` mode's exclusion subquery, as executed, never matches any
face: its `NOT IN` list consists of unbound (NULL) parameters. -/
theorem hasOutsidePersonExecuted_false (faces : List Face) (photoId : ℕ) :
    hasOutsidePersonExecuted faces photoId = false := by
  unfold hasOutsidePersonExecuted
  rw [List.any_eq_false]
  intro f _
  cases h : f.personId <;> simp [h, notInNulls]

/-- The `'only'` mode's first subquery, as a proposition: for a non-empty,
duplicate-free `personIds`, the photo belongs to a group whose
`COUNT(DISTINCT person_id)` equals `personIds.length` exactly when every
requested person has a face in the photo. -/
theorem onlyGroupHolds_iff (faces : List Face) (personIds : List ℕ) (pid : ℕ)
    (hne : personIds ≠ []) (hnodup : personIds.Nodup) :
    onlyGroupHolds faces personIds pid = true ↔
      ∀ q ∈ personIds, ∃ f ∈ faces, f.photoId = pid ∧ f.personId = some q := by
  have hmemM : ∀ f : Face,
      f ∈ faces.filter (fun f => f.photoId == pid && personIdMatches personIds f) ↔
        f ∈ faces ∧ f.photoId = pid ∧ personIdMatches personIds f = true := by
    intro f
    rw [List.mem_filter]
    simp [Bool.and_eq_true]
  have hmemL : ∀ q : ℕ,
      q ∈ (faces.filter
            (fun f => f.photoId == pid && personIdMatches personIds f)).filterMap
          Face.personId ↔
        ∃ f ∈ faces, f.photoId = pid ∧ f.personId = some q ∧ q ∈ personIds := by
    intro q
    rw [List.mem_filterMap]
    constructor
    · rintro ⟨f, hf, hq⟩
      obtain ⟨h1, h2, h3⟩ := (hmemM f).mp hf
      refine ⟨f, h1, h2, hq, ?_⟩
      simp only [personIdMatches, hq, List.elem_iff] at h3
      exact h3
    · rintro ⟨f, hf, hpid, hq, hmemq⟩
      exact ⟨f, (hmemM f).mpr ⟨hf, hpid, by simp [personIdMatches, hq, hmemq]⟩, hq⟩
  have hbool : onlyGroupHolds faces personIds pid = true ↔
      faces.filter (fun f => f.photoId == pid && personIdMatches personIds f) ≠ [] ∧
        ((faces.filter
            (fun f => f.photoId == pid && personIdMatches personIds f)).filterMap
          Face.personId).dedup.length = personIds.length := by
    simp only [onlyGroupHolds, Bool.and_eq_true, Bool.not_eq_true', beq_iff_eq,
      List.isEmpty_eq_false, ne_eq]
  rw [hbool]
  have hLsub : ((faces.filter
      (fun f => f.photoId == pid && personIdMatches personIds f)).filterMap
        Face.personId).toFinset ⊆ personIds.toFinset := by
    intro q hq
    obtain ⟨f, _, _, _, hmemq⟩ := (hmemL q).mp (List.mem_toFinset.mp hq)
    exact List.mem_toFinset.mpr hmemq
  have hcardP : personIds.toFinset.card = personIds.length := by
    rw [List.card_toFinset, hnodup.dedup]
  constructor
  · rintro ⟨_, hlen⟩ q hq
    have hcards : personIds.toFinset.card ≤
        ((faces.filter
          (fun f => f.photoId == pid && personIdMatches personIds f)).filterMap
            Face.personId).toFinset.card := by
      rw [hcardP, List.card_toFinset, hlen]
    have heq := Finset.eq_of_subset_of_card_le hLsub hcards
    have hqL : q ∈ ((faces.filter
        (fun f => f.photoId == pid && personIdMatches personIds f)).filterMap
          Face.personId).toFinset := by
      rw [heq]
      exact List.mem_toFinset.mpr hq
    obtain ⟨f, h1, h2, h3, _⟩ := (hmemL q).mp (List.mem_toFinset.mp hqL)
    exact ⟨f, h1, h2, h3⟩
  · intro hall
    have hPsub : personIds.toFinset ⊆ ((faces.filter
        (fun f => f.photoId == pid && personIdMatches personIds f)).filterMap
          Face.personId).toFinset := by
      intro q hq
      have hq' := List.mem_toFinset.mp hq
      obtain ⟨f, h1, h2, h3⟩ := hall q hq'
      exact List.mem_toFinset.mpr ((hmemL q).mpr ⟨f, h1, h2, h3, hq'⟩)
    have heq : ((faces.filter
        (fun f => f.photoId == pid && personIdMatches personIds f)).filterMap
          Face.personId).toFinset = personIds.toFinset :=
      Finset.Subset.antisymm hLsub hPsub
    constructor
    · obtain ⟨q0, hq0⟩ := List.exists_mem_of_ne_nil personIds hne
      obtain ⟨f, h1, h2, h3⟩ := hall q0 hq0
      intro hnil
      have : f ∈ faces.filter (fun f => f.photoId == pid && personIdMatches personIds f) :=
        (hmemM f).mpr ⟨h1, h2, by simp [personIdMatches, h3, hq0]⟩
      rw [hnil] at this
      cases this
    · rw [← List.card_toFinset, heq, hcardP]

/-- Claim C2 (amended): for a non-empty, duplicate-free `personIds`,
`getPhotosByPeople(personIds, "only")` returns exactly the non-hidden photos
on which *every* person of `personIds` appears on some face (the query's
`HAVING COUNT(DISTINCT person_id) = personIds.length`) — not merely at least
one.  A face of an identified person *outside* `personIds` does **not**
disqualify a photo: the query text's `NOT IN` exclusion subquery has its
parameters left unbound (NULL), so it selects no rows in the running program.
Faces with `personId = null` do not disqualify a photo either. -/
theorem getPhotosByPeople_only_exact (db : DB) (personIds : List ℕ) (photo : Photo)
    (hne : personIds ≠ []) (hnodup : personIds.Nodup) :
    photo ∈ getPhotosByPeople db personIds .only ↔
      photo ∈ db.photos ∧ photo.isHidden = false ∧
        (∀ q ∈ personIds, ∃ f ∈ db.faces, f.photoId = photo.id ∧ f.personId = some q) := by
  have hmem : photo ∈ getPhotosByPeople db personIds .only ↔
      photo ∈ db.photos ∧
        onlyGroupHolds db.faces personIds photo.id = true ∧
        photo.isHidden = false := by
    simp only [getPhotosByPeople]
    rw [mem_sortBy, List.mem_dedup, List.mem_filter]
    simp only [Bool.and_eq_true, Bool.not_eq_true', hasOutsidePersonExecuted_false,
      eq_self_iff_true, and_true, true_and]
  rw [hmem, onlyGroupHolds_iff db.faces personIds photo.id hne hnodup]
  tauto

/-- Witness for C2's amended statement: in `dbAB` (faces of persons 1 and 2 on
the photo) the photo `photoW` is returned by an `'only'` query for person 1
alone, and the equivalence instantiates at that input. -/
theorem getPhotosByPeople_only_exact_witness :
    ([1] : List ℕ) ≠ [] ∧ ([1] : List ℕ).Nodup ∧
      (photoW ∈ getPhotosByPeople dbAB [1] .only ↔
        photoW ∈ dbAB.photos ∧ photoW.isHidden = false ∧
          (∀ q ∈ [1], ∃ f ∈ dbAB.faces, f.photoId = photoW.id ∧ f.personId = some q)) :=
  ⟨by simp, by simp,
    getPhotosByPeople_only_exact dbAB [1] photoW (by simp) (by simp)⟩

/-! ## Claim C3: clusters and `personId` -/

/-- Claim C3 counterexample: two single-face inputs that differ only in the
face's `personId` (`some 5`, carried by an already-labeled face, versus
`none`) produce *identical* `clusterFaces` outputs — the output consists of
`faceIds` and `averageDescriptor` only, so it cannot report the members'
`personId` to the caller.  (The UI layer reconstructs a cluster's person via
`clusterFaces[0]?.personId || null` from the face records instead.) -/
theorem clusterFaces_reports_no_personId :
    clusterFaces [{ faceW1 with personId := some 5 }] 1 = clusterFaces [faceW1] 1 ∧
      ({ faceW1 with personId := some 5 } : Face).personId ≠ faceW1.personId := by
  constructor
  · simp [clusterFaces, clusterFacesAux, findSimilarFaces, collectSimilar, calculateDistance,
      sortBy, insertSorted, collectUnassigned, calculateAverageDescriptor, faceW1]
  · simp [faceW1]

/-- Distances ignore `personId` reassignment, since they read only the
embedding. -/
theorem collectSimilar_reassign (g : ℕ → Option ℕ) (target : List ℚ) (tSq : ℚ)
    (l : List Face) :
    collectSimilar target tSq (l.map (fun f => { f with personId := g f.id }))
      = (collectSimilar target tSq l).map
          (List.map (Prod.map (fun f => { f with personId := g f.id }) id)) := by
  induction l with
  | nil => rfl
  | cons f rest ih =>
      simp only [List.map_cons, collectSimilar, ih]
      have hemb : ({ f with personId := g f.id } : Face).embedding = f.embedding := rfl
      rw [hemb]
      cases hcd : calculateDistance target f.embedding with
      | none => cases hrest : collectSimilar target tSq rest <;> rfl
      | some d =>
          cases hrest : collectSimilar target tSq rest with
          | none => rfl
          | some tail =>
              simp only [Option.map_some']
              by_cases hlt : d < tSq
              · simp [hlt]
              · simp [hlt]

/-- Sorting by distance commutes with `personId` reassignment of the carried
faces (the sort key — the distance — is untouched). -/
theorem sortBy_reassign (g : ℕ → Option ℕ) (pairs : List (Face × ℚ)) :
    sortBy (fun a b => a.2 < b.2)
        (pairs.map (Prod.map (fun f => { f with personId := g f.id }) id))
      = (sortBy (fun a b => a.2 < b.2) pairs).map
          (Prod.map (fun f => { f with personId := g f.id }) id) :=
  sortBy_map (Prod.map (fun f => { f with personId := g f.id }) id) _ _
    (fun _ _ => rfl) pairs

/-- `findSimilarFaces` commutes with `personId` reassignment. -/
theorem findSimilarFaces_reassign (g : ℕ → Option ℕ) (target : List ℚ) (tSq : ℚ)
    (l : List Face) :
    findSimilarFaces target (l.map (fun f => { f with personId := g f.id })) tSq
      = (findSimilarFaces target l tSq).map
          (List.map (fun f => { f with personId := g f.id })) := by
  unfold findSimilarFaces
  rw [collectSimilar_reassign]
  cases hcs : collectSimilar target tSq l with
  | none => rfl
  | some pairs =>
      simp only [Option.map_some']
      rw [sortBy_reassign]
      simp [List.map_map, Function.comp_def, Prod.map]

/-- The inner cluster-collection loop reads only the faces' `id` and
`embedding`, both untouched by `personId` reassignment. -/
theorem collectUnassigned_reassign (g : ℕ → Option ℕ) (sim : List Face) :
    ∀ assigned : Finset ℕ,
      collectUnassigned (sim.map (fun f => { f with personId := g f.id })) assigned
        = collectUnassigned sim assigned := by
  induction sim with
  | nil => intro assigned; rfl
  | cons f rest ih =>
      intro assigned
      simp only [List.map_cons, collectUnassigned]
      have hid : ({ f with personId := g f.id } : Face).id = f.id := rfl
      rw [hid]
      by_cases hmem : f.id ∈ assigned
      · simp [hmem, ih]
      · simp [hmem, ih]

/-- The outer clustering loop is invariant under `personId` reassignment of
both the pending list and the full face set. -/
theorem clusterFacesAux_reassign (g : ℕ → Option ℕ) (allFaces : List Face) (tSq : ℚ) :
    ∀ (pending : List Face) (assigned : Finset ℕ),
      clusterFacesAux (allFaces.map (fun f => { f with personId := g f.id })) tSq
          (pending.map (fun f => { f with personId := g f.id })) assigned
        = clusterFacesAux allFaces tSq pending assigned := by
  intro pending
  induction pending with
  | nil => intro assigned; rfl
  | cons f rest ih =>
      intro assigned
      simp only [List.map_cons, clusterFacesAux]
      have hid : ({ f with personId := g f.id } : Face).id = f.id := rfl
      have hemb : ({ f with personId := g f.id } : Face).embedding = f.embedding := rfl
      rw [hid, hemb]
      by_cases hmem : f.id ∈ assigned
      · simp only [hmem, if_true]
        exact ih assigned
      · simp only [hmem, if_false]
        rw [findSimilarFaces_reassign]
        cases hfs : findSimilarFaces f.embedding allFaces tSq with
        | none => rfl
        | some sim =>
            simp only [Option.map_some']
            rw [collectUnassigned_reassign, ih]

/-- Claim C3 (amended): the output of `clusterFaces` consists of `faceIds` and
`averageDescriptor` only and is invariant under arbitrary reassignment of the
input faces' `personId` fields — in particular it does not report the members'
`personId` (callers recover it from the face records themselves), and the
engine, a pure function of the face set, mutates no `personId`. -/
theorem clusterFaces_personId_invariant (allFaces : List Face) (tSq : ℚ)
    (g : ℕ → Option ℕ) :
    clusterFaces (allFaces.map (fun f => { f with personId := g f.id })) tSq
      = clusterFaces allFaces tSq := by
  unfold clusterFaces
  by_cases hnil : allFaces.isEmpty
  · rw [List.isEmpty_iff] at hnil
    subst hnil
    rfl
  · have hnil' : (allFaces.map (fun f => { f with personId := g f.id })).isEmpty = false := by
      cases allFaces with
      | nil => simp at hnil
      | cons a l => rfl
    have hnil2 : allFaces.isEmpty = false := by
      simp only [Bool.not_eq_true] at hnil
      exact hnil
    simp only [hnil', hnil2, Bool.false_eq_true, if_false]
    rw [clusterFacesAux_reassign]

/-! ## Claim C1: clustering partitions the face ids

Supporting lemmas about the squared distance and the similarity search. -/

/-- The squared distance of a descriptor to itself is 0. -/
theorem calculateDistance_self (d : List ℚ) : calculateDistance d d = some 0 := by
  unfold calculateDistance
  rw [if_pos rfl]
  congr 1
  induction d with
  | nil => rfl
  | cons a l ih => simp [List.zip_cons_cons, ih]

/-- The squared distance is symmetric. -/
theorem calculateDistance_comm (d1 d2 : List ℚ) :
    calculateDistance d1 d2 = calculateDistance d2 d1 := by
  unfold calculateDistance
  by_cases h : d1.length = d2.length
  · rw [if_pos h, if_pos h.symm]
    congr 1
    induction d1 generalizing d2 with
    | nil => cases d2 <;> rfl
    | cons a l1 ih =>
        cases d2 with
        | nil => rfl
        | cons b l2 =>
            simp only [List.zip_cons_cons, List.map_cons, List.sum_cons,
              ih l2 (by simpa using h)]
            ring_nf
  · rw [if_neg h, if_neg (fun h2 => h h2.symm)]

/-- The squared distance is defined exactly for equal-length descriptors. -/
theorem calculateDistance_isSome (d1 d2 : List ℚ) (h : d1.length = d2.length) :
    ∃ s, calculateDistance d1 d2 = some s := by
  unfold calculateDistance
  rw [if_pos h]
  exact ⟨_, rfl⟩

/-- `collectSimilar` succeeds when every distance computation succeeds. -/
theorem collectSimilar_isSome (target : List ℚ) (tSq : ℚ) (l : List Face)
    (h : ∀ f ∈ l, ∃ s, calculateDistance target f.embedding = some s) :
    ∃ ps, collectSimilar target tSq l = some ps := by
  induction l with
  | nil => exact ⟨[], rfl⟩
  | cons f rest ih =>
      obtain ⟨s, hs⟩ := h f (List.mem_cons_self _ _)
      obtain ⟨tail, htail⟩ := ih (fun x hx => h x (List.mem_cons_of_mem _ hx))
      refine ⟨if s < tSq then (f, s) :: tail else tail, ?_⟩
      simp [collectSimilar, hs, htail]

/-- Membership in the collected similar pairs: exactly the faces of the list
whose squared distance to the target is defined and strictly below the
threshold, paired with that distance. -/
theorem collectSimilar_mem (target : List ℚ) (tSq : ℚ) :
    ∀ (l : List Face) (ps : List (Face × ℚ)), collectSimilar target tSq l = some ps →
      ∀ p : Face × ℚ,
        p ∈ ps ↔ p.1 ∈ l ∧ calculateDistance target p.1.embedding = some p.2 ∧ p.2 < tSq := by
  intro l
  induction l with
  | nil =>
      intro ps hps p
      simp only [collectSimilar] at hps
      obtain rfl : ([] : List (Face × ℚ)) = ps := by injection hps
      simp
  | cons f rest ih =>
      intro ps hps p
      simp only [collectSimilar] at hps
      cases hcd : calculateDistance target f.embedding with
      | none => rw [hcd] at hps; cases hps
      | some d =>
          rw [hcd] at hps
          cases htail : collectSimilar target tSq rest with
          | none => rw [htail] at hps; cases hps
          | some tail =>
              rw [htail] at hps
              obtain rfl : (if d < tSq then (f, d) :: tail else tail) = ps := by
                injection hps
              have ihp := ih tail htail p
              by_cases hlt : d < tSq
              · rw [if_pos hlt]
                constructor
                · intro hp
                  rcases List.mem_cons.mp hp with rfl | hp'
                  · exact ⟨List.mem_cons_self _ _, hcd, hlt⟩
                  · obtain ⟨h1, h2, h3⟩ := ihp.mp hp'
                    exact ⟨List.mem_cons_of_mem _ h1, h2, h3⟩
                · rintro ⟨h1, h2, h3⟩
                  rcases List.mem_cons.mp h1 with h1' | h1'
                  · have : p.2 = d := by
                      rw [h1'] at h2
                      rw [hcd] at h2
                      injection h2 with hv
                      exact hv.symm
                    rw [List.mem_cons]
                    left
                    rw [← h1', ← this]
                  · exact List.mem_cons_of_mem _ (ihp.mpr ⟨h1', h2, h3⟩)
              · rw [if_neg hlt]
                constructor
                · intro hp
                  obtain ⟨h1, h2, h3⟩ := ihp.mp hp
                  exact ⟨List.mem_cons_of_mem _ h1, h2, h3⟩
                · rintro ⟨h1, h2, h3⟩
                  rcases List.mem_cons.mp h1 with h1' | h1'
                  · exfalso
                    rw [h1', hcd] at h2
                    have : d = p.2 := by injection h2
                    exact hlt (this ▸ h3)
                  · exact ihp.mpr ⟨h1', h2, h3⟩

/-- `findSimilarFaces` succeeds when every distance computation succeeds. -/
theorem findSimilarFaces_isSome (target : List ℚ) (tSq : ℚ) (allFaces : List Face)
    (h : ∀ f ∈ allFaces, ∃ s, calculateDistance target f.embedding = some s) :
    ∃ sim, findSimilarFaces target allFaces tSq = some sim := by
  obtain ⟨ps, hps⟩ := collectSimilar_isSome target tSq allFaces h
  refine ⟨(sortBy (fun a b => a.2 < b.2) ps).map Prod.fst, ?_⟩
  simp [findSimilarFaces, hps]

/-- Membership in the similar-face list returned by `findSimilarFaces`. -/
theorem findSimilarFaces_mem (target : List ℚ) (tSq : ℚ) (allFaces : List Face)
    (sim : List Face) (hsim : findSimilarFaces target allFaces tSq = some sim) :
    ∀ f : Face, f ∈ sim ↔
      f ∈ allFaces ∧ ∃ s, calculateDistance target f.embedding = some s ∧ s < tSq := by
  intro f
  simp only [findSimilarFaces] at hsim
  cases hps : collectSimilar target tSq allFaces with
  | none => rw [hps] at hsim; cases hsim
  | some ps =>
      rw [hps] at hsim
      obtain rfl : (sortBy (fun a b => a.2 < b.2) ps).map Prod.fst = sim := by
        injection hsim
      rw [List.mem_map]
      constructor
      · rintro ⟨p, hp, rfl⟩
        rw [mem_sortBy] at hp
        obtain ⟨h1, h2, h3⟩ := (collectSimilar_mem target tSq allFaces ps hps p).mp hp
        exact ⟨h1, p.2, h2, h3⟩
      · rintro ⟨h1, s, h2, h3⟩
        refine ⟨(f, s), ?_, rfl⟩
        rw [mem_sortBy]
        exact (collectSimilar_mem target tSq allFaces ps hps (f, s)).mpr ⟨h1, h2, h3⟩

/-- The assigned set after the inner loop is the old set plus the collected
ids. -/
theorem collectUnassigned_assigned (sim : List Face) : ∀ assigned : Finset ℕ,
    (collectUnassigned sim assigned).2.2
      = assigned ∪ (collectUnassigned sim assigned).1.toFinset := by
  induction sim with
  | nil => intro assigned; simp [collectUnassigned]
  | cons f rest ih =>
      intro assigned
      simp only [collectUnassigned]
      by_cases hmem : f.id ∈ assigned
      · simp only [hmem, if_true]
        exact ih assigned
      · simp only [hmem, if_false]
        rw [ih (insert f.id assigned)]
        simp only [List.toFinset_cons]
        rw [Finset.insert_union, Finset.union_insert]

/-- The collected ids are distinct and none of them was already assigned. -/
theorem collectUnassigned_nodup (sim : List Face) : ∀ assigned : Finset ℕ,
    (collectUnassigned sim assigned).1.Nodup ∧
      ∀ i ∈ (collectUnassigned sim assigned).1, i ∉ assigned := by
  induction sim with
  | nil => intro assigned; simp [collectUnassigned]
  | cons f rest ih =>
      intro assigned
      simp only [collectUnassigned]
      by_cases hmem : f.id ∈ assigned
      · simp only [hmem, if_true]
        exact ih assigned
      · simp only [hmem, if_false]
        obtain ⟨hnd, hdis⟩ := ih (insert f.id assigned)
        constructor
        · rw [List.nodup_cons]
          exact ⟨fun hmem' => (hdis f.id hmem') (Finset.mem_insert_self _ _), hnd⟩
        · intro i hi
          rcases List.mem_cons.mp hi with rfl | hi'
          · exact hmem
          · exact fun hia => hdis i hi' (Finset.mem_insert_of_mem hia)

/-- Every face of the similar list ends either already assigned or in the
collected ids. -/
theorem collectUnassigned_covers (sim : List Face) : ∀ assigned : Finset ℕ,
    ∀ f ∈ sim, f.id ∈ assigned ∨ f.id ∈ (collectUnassigned sim assigned).1 := by
  induction sim with
  | nil => intro assigned f hf; cases hf
  | cons g rest ih =>
      intro assigned f hf
      simp only [collectUnassigned]
      by_cases hmem : g.id ∈ assigned
      · simp only [hmem, if_true]
        rcases List.mem_cons.mp hf with rfl | hf'
        · exact Or.inl hmem
        · exact ih assigned f hf'
      · simp only [hmem, if_false]
        rcases List.mem_cons.mp hf with rfl | hf'
        · exact Or.inr (List.mem_cons_self _ _)
        · rcases ih (insert g.id assigned) f hf' with h | h
          · rcases Finset.mem_insert.mp h with h' | h'
            · refine Or.inr ?_
              rw [h']
              exact List.mem_cons_self _ _
            · exact Or.inl h'
          · exact Or.inr (List.mem_cons_of_mem _ h)

/-- Every collected id belongs to some face of the similar list. -/
theorem collectUnassigned_sound (sim : List Face) : ∀ assigned : Finset ℕ,
    ∀ i ∈ (collectUnassigned sim assigned).1, ∃ f ∈ sim, f.id = i := by
  induction sim with
  | nil => intro assigned i hi; simp [collectUnassigned] at hi
  | cons g rest ih =>
      intro assigned i hi
      simp only [collectUnassigned] at hi
      by_cases hmem : g.id ∈ assigned
      · rw [if_pos hmem] at hi
        obtain ⟨f, hf, hfi⟩ := ih assigned i hi
        exact ⟨f, List.mem_cons_of_mem _ hf, hfi⟩
      · rw [if_neg hmem] at hi
        rcases List.mem_cons.mp hi with rfl | hi'
        · exact ⟨g, List.mem_cons_self _ _, rfl⟩
        · obtain ⟨f, hf, hfi⟩ := ih (insert g.id assigned) i hi'
          exact ⟨f, List.mem_cons_of_mem _ hf, hfi⟩

/-- The face ids of a raw cluster list (before average descriptors are
attached), in emission order. -/
def rawIds (cs : List (List ℕ × List (List ℚ))) : List ℕ :=
  (cs.map Prod.fst).flatten

/-- Main invariant of the greedy clustering loop: over any suffix `pending` of
faces drawn from `allFaces`, the loop succeeds (given equal-length
descriptors), emits pairwise-distinct ids, emits only ids of `allFaces` that
were not yet assigned, and leaves no face of `pending` both unassigned and
unemitted.  Requires a positive threshold so that a face is similar to
itself. -/
theorem clusterFacesAux_spec (allFaces : List Face) (tSq : ℚ)
    (hpos : 0 < tSq)
    (hlen : ∀ f ∈ allFaces, ∀ g ∈ allFaces, f.embedding.length = g.embedding.length) :
    ∀ pending : List Face, (∀ f ∈ pending, f ∈ allFaces) → ∀ assigned : Finset ℕ,
    ∃ cs, clusterFacesAux allFaces tSq pending assigned = some cs ∧
      (rawIds cs).Nodup ∧
      (∀ i ∈ rawIds cs, i ∉ assigned ∧ ∃ f ∈ allFaces, f.id = i) ∧
      (∀ f ∈ pending, f.id ∈ assigned ∨ f.id ∈ rawIds cs) := by
  intro pending
  induction pending with
  | nil =>
      intro _ assigned
      exact ⟨[], rfl, by simp [rawIds], by simp [rawIds], by simp⟩
  | cons face rest ih =>
      intro hsub assigned
      have hface : face ∈ allFaces := hsub face (List.mem_cons_self _ _)
      have hrest : ∀ f ∈ rest, f ∈ allFaces := fun f hf => hsub f (List.mem_cons_of_mem _ hf)
      by_cases hmem : face.id ∈ assigned
      · obtain ⟨cs, hcs, hnd, hsound, hcover⟩ := ih hrest assigned
        refine ⟨cs, ?_, hnd, hsound, ?_⟩
        · simp only [clusterFacesAux, hmem, if_true]
          exact hcs
        · intro f hf
          rcases List.mem_cons.mp hf with rfl | hf'
          · exact Or.inl hmem
          · exact hcover f hf'
      · have hsome : ∀ g ∈ allFaces, ∃ s, calculateDistance face.embedding g.embedding = some s :=
          fun g hg => calculateDistance_isSome _ _ (hlen face hface g hg)
        obtain ⟨sim, hsim⟩ := findSimilarFaces_isSome face.embedding tSq allFaces hsome
        have hfacesim : face ∈ sim := by
          rw [findSimilarFaces_mem face.embedding tSq allFaces sim hsim face]
          exact ⟨hface, 0, calculateDistance_self face.embedding, hpos⟩
        have hfid : face.id ∈ (collectUnassigned sim assigned).1 := by
          rcases collectUnassigned_covers sim assigned face hfacesim with h | h
          · exact absurd h hmem
          · exact h
        have hne : (collectUnassigned sim assigned).1 ≠ [] := by
          intro h
          rw [h] at hfid
          cases hfid
        have hassigned' := collectUnassigned_assigned sim assigned
        obtain ⟨cs', hcs', hnd', hsound', hcover'⟩ :=
          ih hrest (collectUnassigned sim assigned).2.2
        obtain ⟨hrnodup, hrdis⟩ := collectUnassigned_nodup sim assigned
        have hraw : rawIds (((collectUnassigned sim assigned).1,
            (collectUnassigned sim assigned).2.1) :: cs')
              = (collectUnassigned sim assigned).1 ++ rawIds cs' := by
          simp [rawIds]
        refine ⟨((collectUnassigned sim assigned).1,
          (collectUnassigned sim assigned).2.1) :: cs', ?_, ?_, ?_, ?_⟩
        · simp only [clusterFacesAux, hmem, if_false, hsim]
          rw [hcs']
          have hemp : (collectUnassigned sim assigned).1.isEmpty = false :=
            List.isEmpty_eq_false.mpr hne
          simp [hemp]
        · rw [hraw, List.nodup_append]
          refine ⟨hrnodup, hnd', ?_⟩
          intro a ha hacs
          have hna := (hsound' a hacs).1
          rw [hassigned'] at hna
          exact hna (Finset.mem_union_right _ (List.mem_toFinset.mpr ha))
        · intro i hi
          rw [hraw, List.mem_append] at hi
          rcases hi with hi | hi
          · refine ⟨hrdis i hi, ?_⟩
            obtain ⟨f, hf, hfi⟩ := collectUnassigned_sound sim assigned i hi
            have hfall : f ∈ allFaces :=
              ((findSimilarFaces_mem face.embedding tSq allFaces sim hsim f).mp hf).1
            exact ⟨f, hfall, hfi⟩
          · obtain ⟨hna, hex⟩ := hsound' i hi
            rw [hassigned'] at hna
            exact ⟨fun ha => hna (Finset.mem_union_left _ ha), hex⟩
        · intro f hf
          rcases List.mem_cons.mp hf with rfl | hf'
          · refine Or.inr ?_
            rw [hraw]
            exact List.mem_append_left _ hfid
          · rcases hcover' f hf' with h | h
            · rw [hassigned'] at h
              rcases Finset.mem_union.mp h with h' | h'
              · exact Or.inl h'
              · refine Or.inr ?_
                rw [hraw]
                exact List.mem_append_left _ (List.mem_toFinset.mp h')
            · refine Or.inr ?_
              rw [hraw]
              exact List.mem_append_right _ h

/-- In a face list with pairwise-distinct ids, the id determines the face. -/
theorem faceId_inj (allFaces : List Face) (hnodup : (allFaces.map Face.id).Nodup) :
    ∀ f ∈ allFaces, ∀ g ∈ allFaces, f.id = g.id → f = g :=
  fun _ hf _ hg h => List.inj_on_of_nodup_map hnodup hf hg h

/-- If every face of the list is at least the threshold away from the target,
nothing is collected. -/
theorem collectSimilar_eq_nil (target : List ℚ) (tSq : ℚ) (l : List Face)
    (h : ∀ g ∈ l, ∃ s, calculateDistance target g.embedding = some s ∧ tSq ≤ s) :
    collectSimilar target tSq l = some [] := by
  induction l with
  | nil => rfl
  | cons g rest ih =>
      obtain ⟨s, hs, hles⟩ := h g (List.mem_cons_self _ _)
      have htail := ih (fun x hx => h x (List.mem_cons_of_mem _ hx))
      simp only [collectSimilar, hs, htail]
      rw [if_neg (not_lt.mpr hles)]

/-- A face strictly farther than the threshold from every *other* face (by
id) collects exactly itself, at distance 0. -/
theorem collectSimilar_eq_singleton (tSq : ℚ) (F : Face) (l : List Face)
    (hpos : 0 < tSq) (hmem : F ∈ l)
    (hinj : ∀ f ∈ l, ∀ g ∈ l, f.id = g.id → f = g)
    (hnodup : l.Nodup)
    (hiso : ∀ g ∈ l, g.id ≠ F.id →
      ∀ s, calculateDistance F.embedding g.embedding = some s → tSq ≤ s)
    (hlen : ∀ g ∈ l, F.embedding.length = g.embedding.length) :
    collectSimilar F.embedding tSq l = some [(F, 0)] := by
  induction l with
  | nil => cases hmem
  | cons g rest ih =>
      have hinj' : ∀ f ∈ rest, ∀ x ∈ rest, f.id = x.id → f = x := fun f hf x hx =>
        hinj f (List.mem_cons_of_mem _ hf) x (List.mem_cons_of_mem _ hx)
      have hiso' : ∀ x ∈ rest, x.id ≠ F.id →
          ∀ s, calculateDistance F.embedding x.embedding = some s → tSq ≤ s :=
        fun x hx => hiso x (List.mem_cons_of_mem _ hx)
      have hlen' : ∀ x ∈ rest, F.embedding.length = x.embedding.length :=
        fun x hx => hlen x (List.mem_cons_of_mem _ hx)
      by_cases hgF : g = F
      · subst hgF
        have hgrest : g ∉ rest := (List.nodup_cons.mp hnodup).1
        have hrestfar : ∀ x ∈ rest, ∃ s,
            calculateDistance g.embedding x.embedding = some s ∧ tSq ≤ s := by
          intro x hx
          obtain ⟨s, hs⟩ := calculateDistance_isSome _ _ (hlen x (List.mem_cons_of_mem _ hx))
          refine ⟨s, hs, ?_⟩
          have hxid : x.id ≠ g.id := by
            intro hxe
            have : x = g := hinj x (List.mem_cons_of_mem _ hx) g (List.mem_cons_self _ _) hxe
            rw [this] at hx
            exact hgrest hx
          exact hiso x (List.mem_cons_of_mem _ hx) hxid s hs
        have htail := collectSimilar_eq_nil g.embedding tSq rest hrestfar
        simp only [collectSimilar, calculateDistance_self, htail]
        rw [if_pos hpos]
      · have hFrest : F ∈ rest := by
          rcases List.mem_cons.mp hmem with h | h
          · exact absurd h.symm hgF
          · exact h
        have hgid : g.id ≠ F.id := by
          intro he
          exact hgF (hinj g (List.mem_cons_self _ _) F (List.mem_cons_of_mem _ hFrest) he)
        obtain ⟨s, hs⟩ := calculateDistance_isSome _ _ (hlen g (List.mem_cons_self _ _))
        have hles : tSq ≤ s := hiso g (List.mem_cons_self _ _) hgid s hs
        have htail := ih hFrest hinj' (List.nodup_cons.mp hnodup).2 hiso' hlen'
        simp only [collectSimilar, hs, htail]
        rw [if_neg (not_lt.mpr hles)]

/-- If `F` is strictly farther than the threshold from every other face of
the input, the loop emits the one-member cluster `[F.id]` at the iteration
that reaches `F`. -/
theorem clusterFacesAux_singleton (allFaces : List Face) (tSq : ℚ)
    (hpos : 0 < tSq)
    (hnodup : (allFaces.map Face.id).Nodup)
    (hlen : ∀ f ∈ allFaces, ∀ g ∈ allFaces, f.embedding.length = g.embedding.length)
    (F : Face) (hF : F ∈ allFaces)
    (hiso : ∀ g ∈ allFaces, g.id ≠ F.id →
      ∀ s, calculateDistance F.embedding g.embedding = some s → tSq ≤ s) :
    ∀ pending : List Face, (∀ f ∈ pending, f ∈ allFaces) → F ∈ pending →
    ∀ assigned : Finset ℕ, F.id ∉ assigned →
    ∀ cs, clusterFacesAux allFaces tSq pending assigned = some cs →
      ∃ c ∈ cs, c.1 = [F.id] := by
  have hinj : ∀ f ∈ allFaces, ∀ g ∈ allFaces, f.id = g.id → f = g := faceId_inj allFaces hnodup
  have hlnodup : allFaces.Nodup := hnodup.of_map
  have hsimF : findSimilarFaces F.embedding allFaces tSq = some [F] := by
    have hcs := collectSimilar_eq_singleton tSq F allFaces hpos hF hinj hlnodup hiso
      (fun g hg => hlen F hF g hg)
    simp [findSimilarFaces, hcs, sortBy, insertSorted]
  intro pending
  induction pending with
  | nil => intro _ hFpend; cases hFpend
  | cons g rest ih =>
      intro hsub hFpend assigned hFassigned cs hcs
      have hgall : g ∈ allFaces := hsub g (List.mem_cons_self _ _)
      by_cases hgid : g.id = F.id
      · obtain rfl : g = F := hinj g hgall F hF hgid
        simp only [clusterFacesAux, hFassigned, if_false, hsimF] at hcs
        have hcu : collectUnassigned [g] assigned = ([g.id], [g.embedding], insert g.id assigned) := by
          simp [collectUnassigned, hFassigned]
        rw [hcu] at hcs
        cases htail : clusterFacesAux allFaces tSq rest (insert g.id assigned) with
        | none => rw [htail] at hcs; cases hcs
        | some tail =>
            rw [htail] at hcs
            have hcseq : (([g.id], [g.embedding]) :: tail
                : List (List ℕ × List (List ℚ))) = cs := by
              have h0 : ([g.id] : List ℕ).isEmpty = false := rfl
              simpa [h0] using hcs
            exact ⟨([g.id], [g.embedding]), by rw [← hcseq]; exact List.mem_cons_self _ _, rfl⟩
      · have hFrest : F ∈ rest := by
          rcases List.mem_cons.mp hFpend with h | h
          · exact absurd (h ▸ rfl) hgid
          · exact h
        by_cases hgmem : g.id ∈ assigned
        · simp only [clusterFacesAux, hgmem, if_true] at hcs
          exact ih (fun f hf => hsub f (List.mem_cons_of_mem _ hf)) hFrest assigned
            hFassigned cs hcs
        · have hsomeg : ∀ x ∈ allFaces, ∃ s, calculateDistance g.embedding x.embedding = some s :=
            fun x hx => calculateDistance_isSome _ _ (hlen g hgall x hx)
          obtain ⟨sim, hsim⟩ := findSimilarFaces_isSome g.embedding tSq allFaces hsomeg
          simp only [clusterFacesAux, hgmem, if_false, hsim] at hcs
          have hFnotsim : F ∉ sim := by
            intro hFs
            obtain ⟨-, s, hds, hlt⟩ :=
              (findSimilarFaces_mem g.embedding tSq allFaces sim hsim F).mp hFs
            rw [calculateDistance_comm] at hds
            exact absurd hlt (not_lt.mpr (hiso g hgall hgid s hds))
          have hFassigned' : F.id ∉ (collectUnassigned sim assigned).2.2 := by
            rw [collectUnassigned_assigned]
            intro hun
            rcases Finset.mem_union.mp hun with h | h
            · exact hFassigned h
            · obtain ⟨f, hfsim, hfid⟩ :=
                collectUnassigned_sound sim assigned F.id (List.mem_toFinset.mp h)
              have hfall : f ∈ allFaces :=
                ((findSimilarFaces_mem g.embedding tSq allFaces sim hsim f).mp hfsim).1
              have hfF : f = F := hinj f hfall F hF hfid
              rw [hfF] at hfsim
              exact hFnotsim hfsim
          cases htail : clusterFacesAux allFaces tSq rest (collectUnassigned sim assigned).2.2 with
          | none => rw [htail] at hcs; cases hcs
          | some tail =>
              rw [htail] at hcs
              obtain ⟨c, hc, hcid⟩ := ih (fun f hf => hsub f (List.mem_cons_of_mem _ hf))
                hFrest _ hFassigned' tail htail
              have hcseq : (if (collectUnassigned sim assigned).1.isEmpty then tail
                  else ((collectUnassigned sim assigned).1,
                    (collectUnassigned sim assigned).2.1) :: tail) = cs := by
                injection hcs
              refine ⟨c, ?_, hcid⟩
              rw [← hcseq]
              by_cases hemp : (collectUnassigned sim assigned).1.isEmpty = true
              · rw [if_pos hemp]
                exact hc
              · rw [if_neg hemp]
                exact List.mem_cons_of_mem _ hc

/-- Claim C1: for every face list with pairwise-distinct ids and equal-length
descriptors and every positive (squared) threshold — in particular the default
0.6 (squared: 0.36) — `clusterFaces` succeeds and its clusters' `faceIds`
partition the input ids: the emitted ids are pairwise distinct and are exactly
the input face ids (no duplicates, no omissions); and a face strictly farther
than the threshold from every other face forms a one-member cluster. -/
theorem clusterFaces_partitions (allFaces : List Face) (tSq : ℚ)
    (hpos : 0 < tSq)
    (hnodup : (allFaces.map Face.id).Nodup)
    (hlen : ∀ f ∈ allFaces, ∀ g ∈ allFaces, f.embedding.length = g.embedding.length) :
    ∃ cs, clusterFaces allFaces tSq = some cs ∧
      (clusterIds cs).Nodup ∧
      (∀ i, i ∈ clusterIds cs ↔ i ∈ allFaces.map Face.id) ∧
      ∀ F ∈ allFaces,
        (∀ g ∈ allFaces, g.id ≠ F.id →
          ∀ s, calculateDistance F.embedding g.embedding = some s → tSq ≤ s) →
        ∃ c ∈ cs, c.faceIds = [F.id] := by
  by_cases hemp : allFaces = []
  · subst hemp
    exact ⟨[], rfl, by simp [clusterIds], by simp [clusterIds], by simp⟩
  · obtain ⟨rcs, hrcs, hnd, hsound, hcover⟩ :=
      clusterFacesAux_spec allFaces tSq hpos hlen allFaces (fun _ hf => hf) ∅
    have hcid : clusterIds (rcs.map (fun c =>
        { faceIds := c.1, averageDescriptor := calculateAverageDescriptor c.2 }))
          = rawIds rcs := by
      simp [clusterIds, rawIds, List.map_map, Function.comp_def]
    refine ⟨rcs.map (fun c =>
      { faceIds := c.1, averageDescriptor := calculateAverageDescriptor c.2 }), ?_, ?_, ?_, ?_⟩
    · have hne : allFaces.isEmpty = false := List.isEmpty_eq_false.mpr hemp
      simp [clusterFaces, hne, hrcs]
    · rw [hcid]
      exact hnd
    · intro i
      rw [hcid]
      constructor
      · intro hi
        obtain ⟨-, f, hf, hfi⟩ := hsound i hi
        exact List.mem_map.mpr ⟨f, hf, hfi⟩
      · intro hi
        obtain ⟨f, hf, hfi⟩ := List.mem_map.mp hi
        rcases hcover f hf with h | h
        · exact absurd h (Finset.not_mem_empty _)
        · rw [← hfi]
          exact h
    · intro F hF hiso
      obtain ⟨c, hc, hcid1⟩ := clusterFacesAux_singleton allFaces tSq hpos hnodup hlen F hF
        hiso allFaces (fun _ hf => hf) hF ∅ (Finset.not_mem_empty _) rcs hrcs
      refine ⟨{ faceIds := c.1, averageDescriptor := calculateAverageDescriptor c.2 },
        List.mem_map.mpr ⟨c, hc, rfl⟩, ?_⟩
      simpa using hcid1

/-- A second face far away from `faceW1`, for the C1 witness. -/
def faceB : Face :=
  { id := 2
    photoId := 2
    embedding := [10]
    boundingBox := boxW
    personId := none
    confidence := 1 }

/-- Witness for C1 at a concrete input: two one-dimensional descriptors `[0]`
and `[10]` with squared threshold 1 — the hypotheses hold and the partition
conclusion instantiates. -/
theorem clusterFaces_partitions_witness :
    (0 : ℚ) < 1 ∧ ([faceW1, faceB].map Face.id).Nodup ∧
      ∃ cs, clusterFaces [faceW1, faceB] 1 = some cs ∧
        (clusterIds cs).Nodup ∧
        (∀ i, i ∈ clusterIds cs ↔ i ∈ [faceW1, faceB].map Face.id) ∧
        ∀ F ∈ [faceW1, faceB],
          (∀ g ∈ [faceW1, faceB], g.id ≠ F.id →
            ∀ s, calculateDistance F.embedding g.embedding = some s → 1 ≤ s) →
          ∃ c ∈ cs, c.faceIds = [F.id] := by
  have hlen : ∀ f ∈ [faceW1, faceB], ∀ g ∈ [faceW1, faceB],
      f.embedding.length = g.embedding.length := by
    intro f hf g hg
    have hfl : f.embedding.length = 1 := by
      rcases List.mem_cons.mp hf with rfl | hf'
      · rfl
      · rw [List.mem_singleton.mp hf']
        rfl
    have hgl : g.embedding.length = 1 := by
      rcases List.mem_cons.mp hg with rfl | hg'
      · rfl
      · rw [List.mem_singleton.mp hg']
        rfl
    rw [hfl, hgl]
  exact ⟨one_pos, by simp [faceW1, faceB],
    clusterFaces_partitions [faceW1, faceB] 1 one_pos (by simp [faceW1, faceB]) hlen⟩

end WPS
